import Mathlib

/-!
Verification development for the `Ext.scroll.Scroller` class of this
repository (scroll-position synchronization, partner reflection,
debounced scroll lifecycle events).

The JavaScript source is embedded shallowly:

* `scrollToArgs` / `scrollByArgs` embed the argument normalization done
  by `Scroller.scrollTo` / `Scroller.scrollBy` before they delegate to
  the platform-specific `doScrollTo`.
* `DS` together with `stepDS` / `runDS` embeds the DOM-scroll debounce
  lifecycle (`onDomScroll`, the buffered `onDomScrollEnd`, `destroy`).
* `World` together with `run` embeds the partner-synchronization layer
  (`addPartner`, `removePartner`, `invokePartners`, `onPartnerScroll`,
  `suspendPartnerSync`, `resumePartnerSync`).

Machine numbers are modelled by `Int`; the scenarios under study only
involve integral scroll offsets.
-/

/-! ## JavaScript argument values

`scrollTo`/`scrollBy` accept a number, a two element array, or an
object with `x`/`y` fields; later positions may hold the animate flag.
`JV` models exactly the JavaScript values those code paths inspect. -/

inductive JV where
  | num (n : Int)
  | bool (b : Bool)
  | null
  | undefined
  | arr2 (a b : JV)
  | objXY (ox oy : JV)
deriving DecidableEq, Repr

/-- JavaScript truthiness of a `JV` (`if (x)`).  Arrays and objects are
always truthy; `null`/`undefined`/`0`/`false` are falsy. -/
def JV.truthy : JV → Bool
  | .num n => n != 0
  | .bool b => b
  | .null => false
  | .undefined => false
  | .arr2 _ _ => true
  | .objXY _ _ => true

/-- Truthiness of `x.length` as read by the source (`if (x.length)`):
only a (two element) array has a truthy `length`. -/
def JV.hasLength : JV → Bool
  | .arr2 _ _ => true
  | _ => false

/-- `typeof x === 'number'`. -/
def JV.isNum : JV → Bool
  | .num _ => true
  | _ => false

/-- Element access `x[0]`. -/
def JV.idx0 : JV → JV
  | .arr2 a _ => a
  | _ => .undefined

/-- Element access `x[1]`. -/
def JV.idx1 : JV → JV
  | .arr2 _ b => b
  | _ => .undefined

/-- Property access `x.x`. -/
def JV.getX : JV → JV
  | .objXY a _ => a
  | _ => .undefined

/-- Property access `x.y`. -/
def JV.getY : JV → JV
  | .objXY _ b => b
  | _ => .undefined

/-- The JavaScript comparison `v < 0` for the values reaching it in
`scrollTo` (only numbers compare less than zero there). -/
def JV.ltz : JV → Bool
  | .num n => n < 0
  | _ => false

/-- Numeric content of a `JV` (only consulted after an `isNum` test). -/
def JV.toNum : JV → Int
  | .num n => n
  | _ => 0

/-- The overload normalization block shared verbatim by `scrollTo` and
`scrollBy` (`if (x) { if (x.length) ... else if (typeof x !== 'number') ... }`):
an array or object first argument is destructured into the axis slots
and the second argument shifts into the animate slot. -/
def normalizeXY (x y animate : JV) : JV × JV × JV :=
  if x.truthy then
    if x.hasLength then (x.idx0, x.idx1, y)
    else if !x.isNum then (x.getX, x.getY, y)
    else (x, y, animate)
  else (x, y, animate)

/-- Embedding of `Scroller.scrollTo` up to (and excluding) the delegated
`doScrollTo` call: returns the triple of arguments handed to
`doScrollTo`.  `maxPos` is the scroller's `maxPosition` config.  A
negative numeric coordinate is replaced by `maxPosition + coordinate`. -/
def scrollToArgs (maxPos : Int × Int) (x y animate : JV) : JV × JV × JV :=
  let (x, y, animate) := normalizeXY x y animate
  let x := if x.ltz then JV.num (x.toNum + maxPos.1) else x
  let y := if y.ltz then JV.num (y.toNum + maxPos.2) else y
  (x, y, animate)

/-- Embedding of `Scroller.scrollBy` up to the delegated `doScrollTo`
call: `position` is the scroller's current position read at entry; a
numeric delta is added to the current position on its axis, any other
value becomes `null` (leave the axis alone). -/
def scrollByArgs (position : Int × Int) (deltaX deltaY animate : JV) : JV × JV × JV :=
  let (deltaX, deltaY, animate) := normalizeXY deltaX deltaY animate
  ( if deltaX.isNum then JV.num (deltaX.toNum + position.1) else JV.null,
    if deltaY.isNum then JV.num (deltaY.toNum + position.2) else JV.null,
    animate )

/-- Coordinate actually applied by the platform layer: a number scrolls
to that offset, anything else (`null`/`undefined`) leaves the axis
untouched. -/
def JV.toCoord : JV → Option Int
  | .num n => some n
  | _ => none

/-- Clamp `v` into the interval `[lo, hi]`. -/
def clampI (lo hi v : Int) : Int := max lo (min hi v)

/-- Modelled from the spec: `doScrollTo` itself lives in the platform
subclasses (`Ext.scroll.DomScroller` / `Ext.scroll.TouchScroller`),
which are repository code outside the files under verification.  Per
the spec, a `null` coordinate leaves that axis at its current position
and a numeric target is clamped into `[min, max]` on its axis. -/
def scrollTargetSpec (minPos maxPos pos : Int × Int) (ox oy : Option Int) : Int × Int :=
  ( match ox with
    | some v => clampI minPos.1 maxPos.1 v
    | none => pos.1,
    match oy with
    | some v => clampI minPos.2 maxPos.2 v
    | none => pos.2 )

/-! ## Debounced scroll lifecycle

One scroller's DOM-scroll handling (`onDomScroll`, the
`Ext.Function.createBuffered`-wrapped `onDomScrollEnd`, and `destroy`)
as a timed transition system.  Times are milliseconds (`Nat`).  The
constructor wraps `onDomScrollEnd` with a 100ms buffer; each call to
the wrapper cancels a pending timer and restarts it 100ms from now. -/

/-- Debounce-relevant state of one scroller.  `pendingEnd` holds the
absolute time at which the buffered `onDomScrollEnd` will fire, if one
is scheduled.  `listener` is the host-level scroll listener installed
by `applyElement`. -/
structure DS where
  isScrolling : Bool
  pendingEnd : Option Nat
  listener : Bool
  destroyed : Bool
deriving DecidableEq, Repr

/-- A freshly constructed scroller with its element applied. -/
def DS.init : DS := ⟨false, none, true, false⟩

/-- Lifecycle events fired by the scroller, tagged with the time they
fire at. -/
inductive DEv where
  | scrollstart (t : Nat)
  | scroll (t : Nat)
  | scrollend (t : Nat)
deriving DecidableEq, Repr

/-- External stimuli: a DOM scroll delta reaching the scroller at time
`t`, or the scroller being destroyed at time `t`. -/
inductive DIn where
  | delta (t : Nat)
  | destroy (t : Nat)
deriving DecidableEq, Repr

/-- The time an input arrives. -/
def DIn.time : DIn → Nat
  | .delta t => t
  | .destroy t => t

/-- Modelled from the spec: the timer queue backing
`Ext.Function.createBuffered` (repository code outside the files under
verification) runs a scheduled callback once its deadline has passed
with no intervening reschedule.  `fireDue s t` delivers a pending
buffered `onDomScrollEnd` whose deadline lies at or before `t`:
the body sets `isScrolling` to `false` and fires `scrollend`. -/
def fireDue (s : DS) (t : Nat) : DS × List DEv :=
  match s.pendingEnd with
  | some d =>
    if d ≤ t then ({ s with isScrolling := false, pendingEnd := none }, [.scrollend d])
    else (s, [])
  | none => (s, [])

/-- Embedding of `onDomScroll` (restricted to the lifecycle bookkeeping;
the position bookkeeping lives in the `World` model): on the first
delta of a gesture it fires `scrollstart`, every delta fires `scroll`,
and every delta (re)schedules the buffered `onDomScrollEnd` 100ms out,
cancelling a previously pending one. -/
def onDelta (s : DS) (t : Nat) : DS × List DEv :=
  if s.destroyed || !s.listener then (s, [])
  else
    let (s, evs) :=
      if s.isScrolling then (s, ([] : List DEv))
      else ({ s with isScrolling := true }, [DEv.scrollstart t])
    ({ s with pendingEnd := some (t + 100) }, evs ++ [DEv.scroll t])

/-- Embedding of `Scroller.destroy`: `setElement(null)` tears down the
host scroll listener (`applyElement` destroys `scrollListener` when the
old element is removed), and the buffered `onDomScrollEnd` slot is
nulled.  Modelled from the spec: cancellation of the pending buffered
timer is required by the spec and the timer internals are repository
code outside the files under verification. -/
def destroyDS (s : DS) : DS :=
  { s with listener := false, pendingEnd := none, destroyed := true }

/-- One input processed at its arrival time: any expired buffered
callback fires first, then the input itself is handled. -/
def stepDS (s : DS) (i : DIn) : DS × List DEv :=
  let (s1, evs) := fireDue s i.time
  match i with
  | .delta t =>
    let (s2, evs2) := onDelta s1 t
    (s2, evs ++ evs2)
  | .destroy _ => (destroyDS s1, evs)

/-- After the last input, a still-pending buffered callback eventually
fires at its deadline. -/
def flushDS (s : DS) : List DEv :=
  match s.pendingEnd with
  | some d => [.scrollend d]
  | none => []

/-- Run a timeline of inputs (ordered by arrival time) from state `s`,
collecting all fired events. -/
def runFrom (s : DS) : List DIn → List DEv
  | [] => flushDS s
  | i :: rest =>
    let (s1, evs) := stepDS s i
    evs ++ runFrom s1 rest

/-- Run a timeline from a freshly constructed scroller. -/
def runDS (ins : List DIn) : List DEv := runFrom DS.init ins

/-- `withinWindowB prev ts`: each time in `ts` strictly follows its
predecessor and arrives strictly within the 100ms quiet window that the
predecessor opened. -/
def withinWindowB : Nat → List Nat → Bool
  | _, [] => true
  | prev, t :: ts => decide (prev < t) && decide (t < prev + 100) && withinWindowB t ts

/-! ## Partner synchronization

A world of scrollers indexed by `Nat` ids.  Each scroller carries the
instance fields that `Ext.scroll.Scroller` keeps outside the config
system: `position`, `isReflecting`, `suspendSync`, `isScrolling`, the
partner map `_partners`, plus the `minPosition`/`maxPosition` configs
consulted by the platform layer.  A log of instrumented calls records
each partner-method invocation and each fired lifecycle event. -/

/-- Partnership axis stored by `addPartner` (`'x'`, `'y'` or `'both'`). -/
inductive Axis where
  | x
  | y
  | both
deriving DecidableEq, Repr

/-- The three partner methods dispatched by `invokePartners`:
`onPartnerScrollStart`, `onPartnerScroll`, `onPartnerScrollEnd`.  The
same tags identify the scroller's own `scrollstart`/`scroll`/`scrollend`
events in the log. -/
inductive PMethod where
  | mstart
  | mscroll
  | mend
deriving DecidableEq, Repr

/-- Association-list lookup in a partner map (`partners[id]`). -/
def pget : List (Nat × Axis) → Nat → Option Axis
  | [], _ => none
  | (k, v) :: rest, id => if k = id then some v else pget rest id

/-- Association-list insertion (`partners[id] = {...}`). -/
def pset (m : List (Nat × Axis)) (k : Nat) (v : Axis) : List (Nat × Axis) :=
  (k, v) :: m.filter (fun e => e.1 != k)

/-- Association-list deletion (`delete partners[id]`). -/
def pdel (m : List (Nat × Axis)) (k : Nat) : List (Nat × Axis) :=
  m.filter (fun e => e.1 != k)

/-- Per-instance state of one scroller. -/
structure Scroller where
  pos : Int × Int
  minPos : Int × Int
  maxPos : Int × Int
  isReflecting : Bool
  suspendSync : Int
  isScrolling : Bool
  pendingEnd : Bool
  partners : List (Nat × Axis)
deriving DecidableEq, Repr

/-- Instrumentation log entries: a partner method invoked on `target`
by originator `src` with the originator's coordinates, or a lifecycle
event fired by scroller `id` itself. -/
inductive LogEv where
  | partnerCall (target src : Nat) (m : PMethod) (x y : Int)
  | fired (id : Nat) (m : PMethod) (x y : Int)
deriving DecidableEq, Repr

/-- The world: all scroller instances plus the instrumentation log. -/
structure World where
  scr : Nat → Scroller
  log : List LogEv

/-- Update one scroller in place. -/
def updScr (w : World) (id : Nat) (f : Scroller → Scroller) : World :=
  { w with scr := fun j => if j = id then f (w.scr j) else w.scr j }

/-- Append a log entry. -/
def logEv (w : World) (e : LogEv) : World :=
  { w with log := w.log ++ [e] }

def setPos (w : World) (id : Nat) (x y : Int) : World :=
  updScr w id fun s => { s with pos := (x, y) }

def setScrolling (w : World) (id : Nat) (b : Bool) : World :=
  updScr w id fun s => { s with isScrolling := b }

def setReflecting (w : World) (id : Nat) (b : Bool) : World :=
  updScr w id fun s => { s with isReflecting := b }

def setPendingEnd (w : World) (id : Nat) (b : Bool) : World :=
  updScr w id fun s => { s with pendingEnd := b }

/-- The re-entrancy guard of `invokePartners`
(`if (!me.suspendSync & !me.isReflecting)`): propagation may proceed
only when the suspend counter is zero and the scroller is not currently
reflecting a partner's position. -/
def guardOpen (s : Scroller) : Bool :=
  s.suspendSync == 0 && !s.isReflecting

/-- Embedding of `Scroller.addPartner`: enters the partner into this
scroller's map and this scroller into the partner's map, both entries
tagged with the same axis. -/
def addPartner (w : World) (a b : Nat) (axis : Axis) : World :=
  let w := updScr w a fun s => { s with partners := pset s.partners b axis }
  updScr w b fun s => { s with partners := pset s.partners a axis }

/-- Embedding of `Scroller.removePartner`: deletes each scroller from
the other's partner map. -/
def removePartner (w : World) (a b : Nat) : World :=
  let w := updScr w a fun s => { s with partners := pdel s.partners b }
  updScr w b fun s => { s with partners := pdel s.partners a }

/-- Embedding of `Scroller.suspendPartnerSync`:
`this.suspendSync = (this.suspendSync || 0) + 1`. -/
def suspendPartnerSync (w : World) (id : Nat) : World :=
  updScr w id fun s => { s with suspendSync := s.suspendSync + 1 }

/-- The calls of the partner-propagation layer.  `domScroll id x y` is
a DOM scroll notification reporting that `id`'s element now sits at
`(x, y)` (`onDomScroll` first refreshes `position` from the element);
`domScrollEnd` is the buffered `onDomScrollEnd` firing.  The remaining
constructors are the internal methods they reach. -/
inductive Call where
  | domScroll (id : Nat) (x y : Int)
  | domScrollEnd (id : Nat)
  | fireScrollStart (id : Nat) (x y : Int)
  | fireScroll (id : Nat) (x y : Int)
  | fireScrollEnd (id : Nat) (x y : Int)
  | invokePartners (id : Nat) (m : PMethod) (x y : Int)
  | invokeList (src : Nat) (m : PMethod) (x y : Int) (ps : List (Nat × Axis))
  | onPartnerScroll (id src : Nat) (x y : Int)
  | doScrollTo (id : Nat) (ox oy : Option Int)
deriving DecidableEq, Repr

/-- Fuel-indexed interpreter for the propagation layer.  Each case is
the body of the correspondingly named source method:

* `domScroll`: `onDomScroll` — refresh `position`, fire `scrollstart`
  on the first delta of a gesture, fire `scroll`, reschedule the
  buffered `onDomScrollEnd`.
* `domScrollEnd`: the buffered `onDomScrollEnd` body — clear
  `isScrolling` and fire `scrollend` with the current position.
* `fireScrollStart`/`fireScroll`/`fireScrollEnd`: propagate to partners
  first, then emit the scroller's own event (logged as `fired`).
* `invokePartners`: the re-entrancy guard, then the partner loop.
* `invokeList`: the loop body — mark the partner reflecting, dispatch
  the method (`onPartnerScrollStart`/`onPartnerScrollEnd` are
  `Ext.emptyFn`), and clear the partner's reflecting flag only when the
  dispatched method is `onPartnerScrollEnd`.
* `onPartnerScroll`: look up the axis stored for this scroller in the
  originator's partner map, null the filtered coordinate, delegate to
  `doScrollTo`.
* `doScrollTo`: the platform write.  Modelled from the spec (the
  subclass implementing it is repository code outside the files under
  verification): the target of `scrollTargetSpec` is written to the
  host surface, and the host emits a DOM scroll notification exactly
  when the written position differs from the current one.

Fuel `0` truncates the run; every scenario below is evaluated with
slack fuel, and every general theorem quantifies over fuel. -/
def run : Nat → World → Call → World
  | 0, w, _ => w
  | fuel + 1, w, Call.domScroll id x y =>
    let w1 := setPos w id x y
    let w2 :=
      if (w1.scr id).isScrolling then w1
      else run fuel (setScrolling w1 id true) (Call.fireScrollStart id x y)
    let w3 := run fuel w2 (Call.fireScroll id x y)
    setPendingEnd w3 id true
  | fuel + 1, w, Call.domScrollEnd id =>
    let s := w.scr id
    let w1 := setScrolling (setPendingEnd w id false) id false
    run fuel w1 (Call.fireScrollEnd id s.pos.1 s.pos.2)
  | fuel + 1, w, Call.fireScrollStart id x y =>
    logEv (run fuel w (Call.invokePartners id PMethod.mstart x y)) (LogEv.fired id PMethod.mstart x y)
  | fuel + 1, w, Call.fireScroll id x y =>
    logEv (run fuel w (Call.invokePartners id PMethod.mscroll x y)) (LogEv.fired id PMethod.mscroll x y)
  | fuel + 1, w, Call.fireScrollEnd id x y =>
    logEv (run fuel w (Call.invokePartners id PMethod.mend x y)) (LogEv.fired id PMethod.mend x y)
  | fuel + 1, w, Call.invokePartners id m x y =>
    if guardOpen (w.scr id) then run fuel w (Call.invokeList id m x y (w.scr id).partners)
    else w
  | _ + 1, w, Call.invokeList _ _ _ _ [] => w
  | fuel + 1, w, Call.invokeList src m x y ((pid, _) :: rest) =>
    let w1 := setReflecting w pid true
    let w2 := logEv w1 (LogEv.partnerCall pid src m x y)
    let w3 :=
      match m with
      | PMethod.mscroll => run fuel w2 (Call.onPartnerScroll pid src x y)
      | _ => w2
    let w4 := if m == PMethod.mend then setReflecting w3 pid false else w3
    run fuel w4 (Call.invokeList src m x y rest)
  | fuel + 1, w, Call.onPartnerScroll id src x y =>
    match pget (w.scr src).partners id with
    | none => w
    | some axis =>
      let ox : Option Int := if axis == Axis.y then none else some x
      let oy : Option Int := if axis == Axis.x then none else some y
      run fuel w (Call.doScrollTo id ox oy)
  | fuel + 1, w, Call.doScrollTo id ox oy =>
    let s := w.scr id
    let t := scrollTargetSpec s.minPos s.maxPos s.pos ox oy
    if t == s.pos then w
    else run fuel w (Call.domScroll id t.1 t.2)

/-- Embedding of `Scroller.resumePartnerSync`: decrement the suspend
counter only when it is nonzero; when the counter has returned to zero
and `syncNow` is set, re-emit the current position to all partners as
one `onPartnerScroll` followed by one `onPartnerScrollEnd`. -/
def resumePartnerSync (fuel : Nat) (w : World) (id : Nat) (syncNow : Bool) : World :=
  let w1 :=
    if (w.scr id).suspendSync == 0 then w
    else updScr w id fun s => { s with suspendSync := s.suspendSync - 1 }
  let s := w1.scr id
  if s.suspendSync == 0 && syncNow then
    let w2 := run fuel w1 (Call.invokePartners id PMethod.mscroll s.pos.1 s.pos.2)
    run fuel w2 (Call.invokePartners id PMethod.mend s.pos.1 s.pos.2)
  else w1

/-- A quiescent scroller with the given scroll range. -/
def mkScroller (maxX maxY : Int) : Scroller :=
  ⟨(0, 0), (0, 0), (maxX, maxY), false, 0, false, false, []⟩

/-- Two scrollers `0` and `1`, not yet partnered. -/
def twoWorld : World :=
  { scr := fun _ => mkScroller 100 200, log := [] }

/-- Two mutually partnered scrollers on both axes (the 2-cycle of the
spec's no-infinite-propagation scenario). -/
def world2 : World := addPartner twoWorld 0 1 Axis.both

/-- Two mutually partnered scrollers synchronized on the y axis only. -/
def world2y : World := addPartner twoWorld 0 1 Axis.y

/-- Two mutually partnered scrollers synchronized on the x axis only. -/
def world2x : World := addPartner twoWorld 0 1 Axis.x

/-- Count of `onPartnerScroll` invocations received by `tgt`. -/
def countPartnerScrollTo (tgt : Nat) (l : List LogEv) : Nat :=
  (l.filter fun e =>
    match e with
    | LogEv.partnerCall t _ PMethod.mscroll _ _ => t == tgt
    | _ => false).length

/-- Count of partner-method invocations (any method) received by `tgt`. -/
def countPartnerCallsTo (tgt : Nat) (l : List LogEv) : Nat :=
  (l.filter fun e =>
    match e with
    | LogEv.partnerCall t _ _ _ _ => t == tgt
    | _ => false).length

/-- Count of `scroll` events fired by scroller `id` itself. -/
def countFiredScroll (id : Nat) (l : List LogEv) : Nat :=
  (l.filter fun e =>
    match e with
    | LogEv.fired i PMethod.mscroll _ _ => i == id
    | _ => false).length

/-- All partner-method invocations, in order. -/
def partnerCalls (l : List LogEv) : List LogEv :=
  l.filter fun e =>
    match e with
    | LogEv.partnerCall _ _ _ _ _ => true
    | _ => false


/-- Discriminator for `scrollstart` events. -/
def isStartEv : DEv → Bool
  | .scrollstart _ => true
  | _ => false

/-- Discriminator for `scroll` events. -/
def isScrollEv : DEv → Bool
  | .scroll _ => true
  | _ => false

/-- Discriminator for `scrollend` events. -/
def isEndEv : DEv → Bool
  | .scrollend _ => true
  | _ => false

/-- Calls whose execution never reaches the `onPartnerScrollEnd` branch
of `invokePartners` (the only place that clears a reflecting flag):
everything except a scroll-end and an end-method partner loop. -/
def endFree : Call → Bool
  | Call.domScrollEnd _ => false
  | Call.fireScrollEnd _ _ _ => false
  | Call.invokePartners _ m _ _ => !(m == PMethod.mend)
  | Call.invokeList _ m _ _ _ => !(m == PMethod.mend)
  | _ => true

/-- Scenario (no-infinite-propagation): the 2-cycle world after a
single originating DOM scroll of scroller `0` to position `(5, 7)`. -/
def c1World : World := run 20 world2 (Call.domScroll 0 5 7)

/-- Scenario (reflecting flag): a second, intermediate DOM scroll of
the originator. -/
def c4World2 : World := run 20 c1World (Call.domScroll 0 9 11)

/-- Scenario (reflecting flag): the originator's buffered scroll-end
finally fires. -/
def c4World3 : World := run 20 c4World2 (Call.domScrollEnd 0)

/-- Scenario (suspension): scroller `0` suspended once, then scrolled
three times while suspended. -/
def c3Suspended : World :=
  run 20 (run 20 (run 20 (suspendPartnerSync world2 0)
    (Call.domScroll 0 10 10)) (Call.domScroll 0 20 20)) (Call.domScroll 0 30 40)

/-- Scenario (suspension): the suspended scroller's own buffered
scroll-end fires (still suspended, so still no propagation). -/
def c3Ended : World := run 20 c3Suspended (Call.domScrollEnd 0)

/-- Scenario (suspension): `resumePartnerSync(true)` after the three
suspended scrolls. -/
def c3Resumed : World := resumePartnerSync 20 c3Ended 0 true

/-- Scenario (unbalanced resume): an extra `resumePartnerSync` on the
never-suspended 2-cycle world. -/
def c10World : World := resumePartnerSync 20 world2 0 false

/-- The scroller a call is centered on: the instance whose handler the
call runs (`invokeList` iterates over several partners and has no
single center). -/
def centerOf : Call → Option Nat
  | Call.domScroll id _ _ => some id
  | Call.domScrollEnd id => some id
  | Call.fireScrollStart id _ _ => some id
  | Call.fireScroll id _ _ => some id
  | Call.fireScrollEnd id _ _ => some id
  | Call.invokePartners id _ _ _ => some id
  | Call.onPartnerScroll id _ _ _ => some id
  | Call.doScrollTo id _ _ => some id
  | Call.invokeList _ _ _ _ _ => none

/-! ## Basic lemmas about the world primitives -/

theorem scr_updScr (w : World) (id : Nat) (f : Scroller → Scroller) (j : Nat) :
    (updScr w id f).scr j = if j = id then f (w.scr id) else w.scr j := by
  by_cases h : j = id <;> simp [updScr, h]

theorem log_updScr (w : World) (id : Nat) (f : Scroller → Scroller) :
    (updScr w id f).log = w.log := rfl

theorem scr_logEv (w : World) (e : LogEv) (j : Nat) : (logEv w e).scr j = w.scr j := rfl

theorem pget_pset_self (m : List (Nat × Axis)) (k : Nat) (v : Axis) :
    pget (pset m k v) k = some v := by
  simp [pget, pset]

theorem pget_filter_ne (k k2 : Nat) (h : k2 ≠ k) :
    ∀ m : List (Nat × Axis), pget (m.filter fun e => e.1 != k) k2 = pget m k2 := by
  intro m
  induction m with
  | nil => simp [pget]
  | cons e rest ih =>
    by_cases hk : e.1 = k
    · have hk2 : ¬ k = k2 := fun hh => h hh.symm
      have : ¬ e.1 = k2 := by
        rw [hk]; exact hk2
      simp [pget, hk, this, ih, hk2]
    · simp [pget, hk]
      by_cases h2 : e.1 = k2 <;> simp [pget, h2, ih]

theorem pget_pset_ne (m : List (Nat × Axis)) (k k2 : Nat) (v : Axis) (h : k2 ≠ k) :
    pget (pset m k v) k2 = pget m k2 := by
  have hne : ¬ k = k2 := fun hh => h hh.symm
  simp [pget, pset, hne]
  exact pget_filter_ne k k2 h m

theorem pget_no_key : ∀ (m : List (Nat × Axis)) (k : Nat),
    (∀ e ∈ m, e.1 ≠ k) → pget m k = none := by
  intro m
  induction m with
  | nil => intro k _; simp [pget]
  | cons e rest ih =>
    intro k h
    have h1 : e.1 ≠ k := h e (by simp)
    simp [pget, h1]
    exact ih k fun e2 he2 => h e2 (by simp [he2])

theorem pget_pdel_self (m : List (Nat × Axis)) (k : Nat) :
    pget (pdel m k) k = none := by
  apply pget_no_key
  intro e he
  have := List.of_mem_filter he
  simpa using this

/-- The re-entrancy guard closes whenever the scroller is reflecting or
suspended. -/
theorem guardOpen_false_of (s : Scroller)
    (h : s.isReflecting = true ∨ s.suspendSync ≠ 0) : guardOpen s = false := by
  rcases h with h | h
  · simp [guardOpen, h]
  · simp [guardOpen, h]

/-- A blocked `invokePartners` is a complete no-op on the world. -/
theorem run_invokePartners_blocked (fuel : Nat) (w : World) (id : Nat)
    (m : PMethod) (x y : Int) (h : guardOpen (w.scr id) = false) :
    run fuel w (Call.invokePartners id m x y) = w := by
  cases fuel with
  | zero => rfl
  | succ n => simp [run, h]

/-! ## Argument normalization lemmas -/

theorem normalizeXY_num (n : Int) (y animate : JV) :
    normalizeXY (JV.num n) y animate = (JV.num n, y, animate) := by
  by_cases h : n = 0 <;>
    simp [normalizeXY, JV.truthy, JV.hasLength, JV.isNum, h]

theorem normalizeXY_arr2 (a b y animate : JV) :
    normalizeXY (JV.arr2 a b) y animate = (a, b, y) := rfl

theorem normalizeXY_objXY (a b y animate : JV) :
    normalizeXY (JV.objXY a b) y animate = (a, b, y) := rfl

theorem normalizeXY_null (y animate : JV) :
    normalizeXY JV.null y animate = (JV.null, y, animate) := rfl

/-! ## C5: partnership creation and removal are symmetric -/

/-- C5.  After `addPartner(A, B, axis)` each scroller's partner map
lists the other under the given axis, and after `removePartner(A, B)`
neither partner map contains the other, whatever the starting world. -/
theorem addPartner_removePartner_symmetric :
    ∀ (w : World) (a b : Nat) (axis : Axis),
      pget ((addPartner w a b axis).scr a).partners b = some axis ∧
      pget ((addPartner w a b axis).scr b).partners a = some axis ∧
      pget ((removePartner w a b).scr a).partners b = none ∧
      pget ((removePartner w a b).scr b).partners a = none := by
  intro w a b axis
  by_cases hab : a = b
  · subst hab
    refine ⟨?_, ?_, ?_, ?_⟩ <;>
      simp [addPartner, removePartner, scr_updScr, pget_pset_self, pget_pdel_self]
  · have hba : b ≠ a := fun h => hab h.symm
    refine ⟨?_, ?_, ?_, ?_⟩ <;>
      simp [addPartner, removePartner, scr_updScr, hab, hba,
        pget_pset_self, pget_pdel_self]

/-! ## C7: negative scrollTo coordinates offset from the maximum -/

/-- C7.  Each coordinate handed to `scrollTo` is treated per axis: a
negative one is turned into `maxPosition + coordinate` on that axis
before `doScrollTo` is called, a non-negative one passes through
unchanged — so mixed calls such as `scrollTo(-10, 5)` offset only the
negative axis; in particular `scrollTo(-10, -20)` with `maxPosition
{x:100, y:200}` targets `{x:90, y:180}`. -/
theorem scrollTo_negative_offsets :
    (∀ (mx my x y : Int) (a : JV),
      scrollToArgs (mx, my) (JV.num x) (JV.num y) a =
        (if x < 0 then JV.num (x + mx) else JV.num x,
         if y < 0 then JV.num (y + my) else JV.num y, a)) ∧
    scrollToArgs (100, 200) (JV.num (-10)) (JV.num (-20)) (JV.bool true) =
      (JV.num 90, JV.num 180, JV.bool true) ∧
    scrollToArgs (100, 200) (JV.num (-10)) (JV.num 5) (JV.bool true) =
      (JV.num 90, JV.num 5, JV.bool true) ∧
    scrollToArgs (100, 200) (JV.num 5) (JV.num (-20)) (JV.bool true) =
      (JV.num 5, JV.num 180, JV.bool true) := by
  refine ⟨?_, by decide, by decide, by decide⟩
  intro mx my x y a
  simp only [scrollToArgs, normalizeXY_num]
  by_cases hx : x < 0 <;> by_cases hy : y < 0 <;>
    simp [JV.ltz, JV.toNum, hx, hy]

/-! ## C8: number, array and object argument forms are equivalent -/

/-- C8.  `scrollTo(x, y, a)`, `scrollTo([x, y], a)` and
`scrollTo({x, y}, a)` normalize to identical `doScrollTo` argument
triples, and likewise for `scrollBy`; a `null` coordinate on either
axis survives normalization as `null` (for `scrollTo` and `scrollBy`
alike) and the platform target then leaves that axis at its current
position. -/
theorem scroll_arg_forms_equivalent :
    (∀ (mp : Int × Int) (n m : Int) (a : Bool),
      scrollToArgs mp (JV.num n) (JV.num m) (JV.bool a) =
        scrollToArgs mp (JV.arr2 (JV.num n) (JV.num m)) (JV.bool a) JV.undefined ∧
      scrollToArgs mp (JV.num n) (JV.num m) (JV.bool a) =
        scrollToArgs mp (JV.objXY (JV.num n) (JV.num m)) (JV.bool a) JV.undefined) ∧
    (∀ (p : Int × Int) (n m : Int) (a : Bool),
      scrollByArgs p (JV.num n) (JV.num m) (JV.bool a) =
        scrollByArgs p (JV.arr2 (JV.num n) (JV.num m)) (JV.bool a) JV.undefined ∧
      scrollByArgs p (JV.num n) (JV.num m) (JV.bool a) =
        scrollByArgs p (JV.objXY (JV.num n) (JV.num m)) (JV.bool a) JV.undefined) ∧
    (∀ (mp : Int × Int) (y a : JV),
      (scrollToArgs mp JV.null y a).1 = JV.null) ∧
    (∀ (mp : Int × Int) (x : Int) (a : JV),
      (scrollToArgs mp (JV.num x) JV.null a).2.1 = JV.null) ∧
    (∀ (p : Int × Int) (dy : Int) (a : JV),
      scrollByArgs p JV.null (JV.num dy) a =
        (JV.null, JV.num (dy + p.2), a)) ∧
    (∀ (p : Int × Int) (dx : Int) (a : JV),
      scrollByArgs p (JV.num dx) JV.null a =
        (JV.num (dx + p.1), JV.null, a)) ∧
    (∀ (minP maxP p : Int × Int) (oy : Option Int),
      (scrollTargetSpec minP maxP p JV.null.toCoord oy).1 = p.1) ∧
    (∀ (minP maxP p : Int × Int) (ox : Option Int),
      (scrollTargetSpec minP maxP p ox JV.null.toCoord).2 = p.2) := by
  refine ⟨?_, ?_, ?_, ?_, ?_, ?_, ?_, ?_⟩
  · intro mp n m a
    constructor <;>
      simp [scrollToArgs, normalizeXY_num, normalizeXY_arr2, normalizeXY_objXY]
  · intro p n m a
    constructor <;>
      simp [scrollByArgs, normalizeXY_num, normalizeXY_arr2, normalizeXY_objXY]
  · intro mp y a
    rfl
  · intro mp x a
    simp [scrollToArgs, normalizeXY_num, JV.ltz]
  · intro p dy a
    simp [scrollByArgs, normalizeXY_null, JV.isNum, JV.toNum]
  · intro p dx a
    simp [scrollByArgs, normalizeXY_num, JV.isNum, JV.toNum]
  · intro minP maxP p oy
    cases oy <;> rfl
  · intro minP maxP p ox
    cases ox <;> rfl

/-! ## Preservation of the suspend counter and partner maps by `run` -/

theorem sp_trans {w1 w2 w3 : World} (j : Nat)
    (h23 : (w3.scr j).suspendSync = (w2.scr j).suspendSync ∧
      (w3.scr j).partners = (w2.scr j).partners)
    (h12 : (w2.scr j).suspendSync = (w1.scr j).suspendSync ∧
      (w2.scr j).partners = (w1.scr j).partners) :
    (w3.scr j).suspendSync = (w1.scr j).suspendSync ∧
      (w3.scr j).partners = (w1.scr j).partners :=
  ⟨h23.1.trans h12.1, h23.2.trans h12.2⟩

theorem sp_updScr (w : World) (id : Nat) (f : Scroller → Scroller)
    (hf : ∀ s, (f s).suspendSync = s.suspendSync ∧ (f s).partners = s.partners)
    (j : Nat) :
    ((updScr w id f).scr j).suspendSync = (w.scr j).suspendSync ∧
      ((updScr w id f).scr j).partners = (w.scr j).partners := by
  rw [scr_updScr]
  by_cases h : j = id <;> simp [h, hf]

theorem sp_setPos (w : World) (id : Nat) (x y : Int) (j : Nat) :
    ((setPos w id x y).scr j).suspendSync = (w.scr j).suspendSync ∧
      ((setPos w id x y).scr j).partners = (w.scr j).partners := by
  unfold setPos
  refine sp_updScr w id _ ?_ j
  intro s
  exact ⟨rfl, rfl⟩

theorem sp_setScrolling (w : World) (id : Nat) (b : Bool) (j : Nat) :
    ((setScrolling w id b).scr j).suspendSync = (w.scr j).suspendSync ∧
      ((setScrolling w id b).scr j).partners = (w.scr j).partners := by
  unfold setScrolling
  refine sp_updScr w id _ ?_ j
  intro s
  exact ⟨rfl, rfl⟩

theorem sp_setReflecting (w : World) (id : Nat) (b : Bool) (j : Nat) :
    ((setReflecting w id b).scr j).suspendSync = (w.scr j).suspendSync ∧
      ((setReflecting w id b).scr j).partners = (w.scr j).partners := by
  unfold setReflecting
  refine sp_updScr w id _ ?_ j
  intro s
  exact ⟨rfl, rfl⟩

theorem sp_setPendingEnd (w : World) (id : Nat) (b : Bool) (j : Nat) :
    ((setPendingEnd w id b).scr j).suspendSync = (w.scr j).suspendSync ∧
      ((setPendingEnd w id b).scr j).partners = (w.scr j).partners := by
  unfold setPendingEnd
  refine sp_updScr w id _ ?_ j
  intro s
  exact ⟨rfl, rfl⟩

theorem sp_logEv (w : World) (e : LogEv) (j : Nat) :
    ((logEv w e).scr j).suspendSync = (w.scr j).suspendSync ∧
      ((logEv w e).scr j).partners = (w.scr j).partners :=
  ⟨rfl, rfl⟩

/-- `run` never modifies a suspend counter or a partner map: those are
touched only by `suspendPartnerSync`/`resumePartnerSync` and
`addPartner`/`removePartner`. -/
theorem run_preserves_sp : ∀ (fuel : Nat) (c : Call) (w : World) (j : Nat),
    ((run fuel w c).scr j).suspendSync = (w.scr j).suspendSync ∧
      ((run fuel w c).scr j).partners = (w.scr j).partners := by
  intro fuel
  induction fuel with
  | zero => intro c w j; exact ⟨rfl, rfl⟩
  | succ n ih =>
    intro c w j
    cases c with
    | domScroll id x y =>
      simp only [run]
      by_cases hc : ((setPos w id x y).scr id).isScrolling = true <;>
        simp only [hc, if_true, if_false, Bool.false_eq_true] <;>
        [skip; skip] <;>
        first
        | exact sp_trans j (sp_setPendingEnd _ _ _ j)
            (sp_trans j (ih _ _ j) (sp_setPos _ _ _ _ j))
        | exact sp_trans j (sp_setPendingEnd _ _ _ j)
            (sp_trans j (ih _ _ j)
              (sp_trans j (ih _ _ j)
                (sp_trans j (sp_setScrolling _ _ _ j) (sp_setPos _ _ _ _ j))))
    | domScrollEnd id =>
      simp only [run]
      exact sp_trans j (ih _ _ j)
        (sp_trans j (sp_setScrolling _ _ _ j) (sp_setPendingEnd _ _ _ j))
    | fireScrollStart id x y =>
      simp only [run]
      exact sp_trans j (sp_logEv _ _ j) (ih _ _ j)
    | fireScroll id x y =>
      simp only [run]
      exact sp_trans j (sp_logEv _ _ j) (ih _ _ j)
    | fireScrollEnd id x y =>
      simp only [run]
      exact sp_trans j (sp_logEv _ _ j) (ih _ _ j)
    | invokePartners id m x y =>
      simp only [run]
      by_cases hc : guardOpen (w.scr id) = true <;>
        simp only [hc, if_true, if_false, Bool.false_eq_true]
      · exact ih _ _ j
      · trivial
    | invokeList src m x y ps =>
      cases ps with
      | nil => exact ⟨rfl, rfl⟩
      | cons p rest =>
        obtain ⟨pid, ax⟩ := p
        simp only [run]
        refine sp_trans j (ih _ _ j) ?_
        by_cases hm : m == PMethod.mend <;>
          simp only [hm, if_true, if_false, Bool.false_eq_true]
        · refine sp_trans j (sp_setReflecting _ _ _ j) ?_
          cases m with
          | mscroll =>
            exact sp_trans j (ih _ _ j)
              (sp_trans j (sp_logEv _ _ j) (sp_setReflecting _ _ _ j))
          | mstart => exact sp_trans j (sp_logEv _ _ j) (sp_setReflecting _ _ _ j)
          | mend => exact sp_trans j (sp_logEv _ _ j) (sp_setReflecting _ _ _ j)
        · cases m with
          | mscroll =>
            exact sp_trans j (ih _ _ j)
              (sp_trans j (sp_logEv _ _ j) (sp_setReflecting _ _ _ j))
          | mstart => exact sp_trans j (sp_logEv _ _ j) (sp_setReflecting _ _ _ j)
          | mend => exact sp_trans j (sp_logEv _ _ j) (sp_setReflecting _ _ _ j)
    | onPartnerScroll id src x y =>
      simp only [run]
      cases hax : pget ((w.scr src).partners) id with
      | none => exact ⟨rfl, rfl⟩
      | some axis => exact ih _ _ j
    | doScrollTo id ox oy =>
      simp only [run]
      by_cases hc :
          (scrollTargetSpec (w.scr id).minPos (w.scr id).maxPos (w.scr id).pos ox oy
            == (w.scr id).pos) = true <;>
        simp only [hc, if_true, if_false, Bool.false_eq_true]
      · trivial
      · exact ih _ _ j

/-! ## The reflecting flag across end-free call cascades -/

theorem reflTrue_updScr (w : World) (id : Nat) (f : Scroller → Scroller)
    (hf : ∀ s, s.isReflecting = true → (f s).isReflecting = true) (j : Nat)
    (h : (w.scr j).isReflecting = true) :
    ((updScr w id f).scr j).isReflecting = true := by
  rw [scr_updScr]
  by_cases hj : j = id
  · subst hj; simp [hf _ h]
  · simp [hj, h]

theorem reflTrue_setPos (w : World) (id : Nat) (x y : Int) (j : Nat)
    (h : (w.scr j).isReflecting = true) :
    ((setPos w id x y).scr j).isReflecting = true := by
  unfold setPos
  refine reflTrue_updScr w id _ ?_ j h
  intro s hs
  exact hs

theorem reflTrue_setScrolling (w : World) (id : Nat) (b : Bool) (j : Nat)
    (h : (w.scr j).isReflecting = true) :
    ((setScrolling w id b).scr j).isReflecting = true := by
  unfold setScrolling
  refine reflTrue_updScr w id _ ?_ j h
  intro s hs
  exact hs

theorem reflTrue_setPendingEnd (w : World) (id : Nat) (b : Bool) (j : Nat)
    (h : (w.scr j).isReflecting = true) :
    ((setPendingEnd w id b).scr j).isReflecting = true := by
  unfold setPendingEnd
  refine reflTrue_updScr w id _ ?_ j h
  intro s hs
  exact hs

theorem reflTrue_setReflecting_true (w : World) (id : Nat) (j : Nat)
    (h : (w.scr j).isReflecting = true) :
    ((setReflecting w id true).scr j).isReflecting = true := by
  unfold setReflecting
  refine reflTrue_updScr w id _ ?_ j h
  intro s _
  rfl

/-- Across any end-free call cascade (a cascade that never reaches the
`onPartnerScrollEnd` branch of `invokePartners`), a set reflecting flag
stays set: intermediate scroll deltas never clear `isReflecting`. -/
theorem run_reflect_mono : ∀ (fuel : Nat) (c : Call) (w : World) (j : Nat),
    endFree c = true → (w.scr j).isReflecting = true →
    ((run fuel w c).scr j).isReflecting = true := by
  intro fuel
  induction fuel with
  | zero => intro c w j _ h; exact h
  | succ n ih =>
    intro c w j hef h
    cases c with
    | domScroll id x y =>
      simp only [run]
      by_cases hc : ((setPos w id x y).scr id).isScrolling = true <;>
        simp only [hc, if_true, if_false, Bool.false_eq_true]
      · exact reflTrue_setPendingEnd _ _ _ _
          (ih _ _ j rfl (reflTrue_setPos _ _ _ _ _ h))
      · exact reflTrue_setPendingEnd _ _ _ _
          (ih _ _ j rfl
            (ih _ _ j rfl
              (reflTrue_setScrolling _ _ _ _ (reflTrue_setPos _ _ _ _ _ h))))
    | domScrollEnd id => simp [endFree] at hef
    | fireScrollStart id x y =>
      simp only [run]
      exact ih _ _ j rfl h
    | fireScroll id x y =>
      simp only [run]
      exact ih _ _ j rfl h
    | fireScrollEnd id x y => simp [endFree] at hef
    | invokePartners id m x y =>
      have hm : (m == PMethod.mend) = false := by
        simpa [endFree] using hef
      simp only [run]
      by_cases hc : guardOpen (w.scr id) = true <;>
        simp only [hc, if_true, if_false, Bool.false_eq_true]
      · exact ih _ _ j (by simp [endFree, hm]) h
      · exact h
    | invokeList src m x y ps =>
      have hm : (m == PMethod.mend) = false := by
        simpa [endFree] using hef
      cases ps with
      | nil => exact h
      | cons p rest =>
        obtain ⟨pid, ax⟩ := p
        simp only [run, hm, if_false, Bool.false_eq_true]
        refine ih _ _ j (by simp [endFree, hm]) ?_
        have h1 : ((setReflecting w pid true).scr j).isReflecting = true :=
          reflTrue_setReflecting_true _ _ _ h
        cases m with
        | mscroll => exact ih _ _ j rfl h1
        | mstart => exact h1
        | mend => simp at hm
    | onPartnerScroll id src x y =>
      simp only [run]
      cases hax : pget ((w.scr src).partners) id with
      | none => exact h
      | some axis => exact ih _ _ j rfl h
    | doScrollTo id ox oy =>
      simp only [run]
      by_cases hc :
          (scrollTargetSpec (w.scr id).minPos (w.scr id).maxPos (w.scr id).pos ox oy
            == (w.scr id).pos) = true <;>
        simp only [hc, if_true, if_false, Bool.false_eq_true]
      · exact h
      · exact ih _ _ j rfl h

/-! ## Frame lemmas: a reflecting scroller's cascade stays local -/

theorem scr_updScr_ne (w : World) (id : Nat) (f : Scroller → Scroller) (j : Nat)
    (h : j ≠ id) : (updScr w id f).scr j = w.scr j := by
  rw [scr_updScr]
  simp [h]

theorem frame_trans {w1 w2 w3 : World} (pid : Nat)
    (h23 : ∀ j, j ≠ pid → w3.scr j = w2.scr j)
    (h12 : ∀ j, j ≠ pid → w2.scr j = w1.scr j) :
    ∀ j, j ≠ pid → w3.scr j = w1.scr j :=
  fun j hj => (h23 j hj).trans (h12 j hj)

/-- A call centered on a scroller whose reflecting flag is set can only
modify that scroller (its `invokePartners` is blocked, so the cascade
never escapes), and the flag survives the cascade. -/
theorem run_reflected_frame : ∀ (fuel : Nat) (c : Call) (w : World) (pid : Nat),
    centerOf c = some pid → (w.scr pid).isReflecting = true →
    (∀ j, j ≠ pid → (run fuel w c).scr j = w.scr j) ∧
      ((run fuel w c).scr pid).isReflecting = true := by
  intro fuel
  induction fuel with
  | zero => intro c w pid _ h; exact ⟨fun _ _ => rfl, h⟩
  | succ n ih =>
    intro c w pid hcen h
    cases c with
    | domScroll id x y =>
      have hid : id = pid := by simpa [centerOf] using hcen
      subst hid
      simp only [run]
      by_cases hc : ((setPos w id x y).scr id).isScrolling = true <;>
        simp only [hc, if_true, if_false, Bool.false_eq_true]
      · have h1 : ((setPos w id x y).scr id).isReflecting = true :=
          reflTrue_setPos _ _ _ _ _ h
        have h2 := ih (Call.fireScroll id x y) (setPos w id x y) id rfl h1
        constructor
        · refine frame_trans id (fun j hj => scr_updScr_ne _ _ _ _ hj) ?_
          refine frame_trans id h2.1 ?_
          exact fun j hj => scr_updScr_ne _ _ _ _ hj
        · exact reflTrue_setPendingEnd _ _ _ _ h2.2
      · have h1 : ((setScrolling (setPos w id x y) id true).scr id).isReflecting = true :=
          reflTrue_setScrolling _ _ _ _ (reflTrue_setPos _ _ _ _ _ h)
        have h2 := ih (Call.fireScrollStart id x y) (setScrolling (setPos w id x y) id true) id rfl h1
        have h3 := ih (Call.fireScroll id x y) _ id rfl h2.2
        constructor
        · refine frame_trans id (fun j hj => scr_updScr_ne _ _ _ _ hj) ?_
          refine frame_trans id h3.1 ?_
          refine frame_trans id h2.1 ?_
          refine frame_trans id (fun j hj => scr_updScr_ne _ _ _ _ hj) ?_
          exact fun j hj => scr_updScr_ne _ _ _ _ hj
        · exact reflTrue_setPendingEnd _ _ _ _ h3.2
    | domScrollEnd id =>
      have hid : id = pid := by simpa [centerOf] using hcen
      subst hid
      simp only [run]
      have h1 : ((setScrolling (setPendingEnd w id false) id false).scr id).isReflecting = true :=
        reflTrue_setScrolling _ _ _ _ (reflTrue_setPendingEnd _ _ _ _ h)
      have h2 := ih (Call.fireScrollEnd id (w.scr id).pos.1 (w.scr id).pos.2) _ id rfl h1
      constructor
      · refine frame_trans id h2.1 ?_
        refine frame_trans id (fun j hj => scr_updScr_ne _ _ _ _ hj) ?_
        exact fun j hj => scr_updScr_ne _ _ _ _ hj
      · exact h2.2
    | fireScrollStart id x y =>
      have hid : id = pid := by simpa [centerOf] using hcen
      subst hid
      simp only [run]
      have h2 := ih (Call.invokePartners id PMethod.mstart x y) w id rfl h
      exact ⟨fun j hj => h2.1 j hj, h2.2⟩
    | fireScroll id x y =>
      have hid : id = pid := by simpa [centerOf] using hcen
      subst hid
      simp only [run]
      have h2 := ih (Call.invokePartners id PMethod.mscroll x y) w id rfl h
      exact ⟨fun j hj => h2.1 j hj, h2.2⟩
    | fireScrollEnd id x y =>
      have hid : id = pid := by simpa [centerOf] using hcen
      subst hid
      simp only [run]
      have h2 := ih (Call.invokePartners id PMethod.mend x y) w id rfl h
      exact ⟨fun j hj => h2.1 j hj, h2.2⟩
    | invokePartners id m x y =>
      have hid : id = pid := by simpa [centerOf] using hcen
      subst hid
      have hg : guardOpen (w.scr id) = false := guardOpen_false_of _ (Or.inl h)
      rw [run_invokePartners_blocked _ _ _ _ _ _ hg]
      exact ⟨fun _ _ => rfl, h⟩
    | invokeList src m x y ps => simp [centerOf] at hcen
    | onPartnerScroll id src x y =>
      have hid : id = pid := by simpa [centerOf] using hcen
      subst hid
      simp only [run]
      cases hax : pget ((w.scr src).partners) id with
      | none => exact ⟨fun _ _ => rfl, h⟩
      | some axis => exact ih _ w id rfl h
    | doScrollTo id ox oy =>
      have hid : id = pid := by simpa [centerOf] using hcen
      subst hid
      simp only [run]
      by_cases hc :
          (scrollTargetSpec (w.scr id).minPos (w.scr id).maxPos (w.scr id).pos ox oy
            == (w.scr id).pos) = true <;>
        simp only [hc, if_true, if_false, Bool.false_eq_true]
      · exact ⟨fun _ _ => trivial, h⟩
      · exact ih _ w id rfl h

theorem scr_setPos_self (w : World) (id : Nat) (x y : Int) :
    (setPos w id x y).scr id = { w.scr id with pos := (x, y) } := by
  unfold setPos
  rw [scr_updScr]
  simp

theorem scr_setPos_ne (w : World) (id : Nat) (x y : Int) (j : Nat) (h : j ≠ id) :
    (setPos w id x y).scr j = w.scr j := by
  unfold setPos
  exact scr_updScr_ne _ _ _ _ h

theorem scr_setScrolling_self (w : World) (id : Nat) (b : Bool) :
    (setScrolling w id b).scr id = { w.scr id with isScrolling := b } := by
  unfold setScrolling
  rw [scr_updScr]
  simp

theorem scr_setScrolling_ne (w : World) (id : Nat) (b : Bool) (j : Nat) (h : j ≠ id) :
    (setScrolling w id b).scr j = w.scr j := by
  unfold setScrolling
  exact scr_updScr_ne _ _ _ _ h

theorem scr_setReflecting_self (w : World) (id : Nat) (b : Bool) :
    (setReflecting w id b).scr id = { w.scr id with isReflecting := b } := by
  unfold setReflecting
  rw [scr_updScr]
  simp

theorem scr_setReflecting_ne (w : World) (id : Nat) (b : Bool) (j : Nat) (h : j ≠ id) :
    (setReflecting w id b).scr j = w.scr j := by
  unfold setReflecting
  exact scr_updScr_ne _ _ _ _ h

theorem scr_setPendingEnd_self (w : World) (id : Nat) (b : Bool) :
    (setPendingEnd w id b).scr id = { w.scr id with pendingEnd := b } := by
  unfold setPendingEnd
  rw [scr_updScr]
  simp

theorem scr_setPendingEnd_ne (w : World) (id : Nat) (b : Bool) (j : Nat) (h : j ≠ id) :
    (setPendingEnd w id b).scr j = w.scr j := by
  unfold setPendingEnd
  exact scr_updScr_ne _ _ _ _ h

/-- The partner loop never modifies a scroller that is not in the
partner list being iterated. -/
theorem run_invokeList_frame : ∀ (fuel : Nat) (ps : List (Nat × Axis)) (w : World)
    (src : Nat) (m : PMethod) (x y : Int) (j : Nat),
    (∀ p ∈ ps, p.1 ≠ j) →
    (run fuel w (Call.invokeList src m x y ps)).scr j = w.scr j := by
  intro fuel
  induction fuel with
  | zero => intro ps w src m x y j _; rfl
  | succ n ih =>
    intro ps w src m x y j hps
    cases ps with
    | nil => rfl
    | cons p rest =>
      obtain ⟨pid, ax⟩ := p
      have hpid : pid ≠ j := hps (pid, ax) (by simp)
      have hj : j ≠ pid := fun hh => hpid hh.symm
      have hrest : ∀ p ∈ rest, p.1 ≠ j := fun p hp => hps p (by simp [hp])
      simp only [run]
      rw [ih rest _ src m x y j hrest]
      have hrefl : ((logEv (setReflecting w pid true)
          (LogEv.partnerCall pid src m x y)).scr pid).isReflecting = true := by
        rw [scr_logEv, scr_setReflecting_self]
      have h3 : ∀ w3 : World,
          w3.scr j = w.scr j →
          ((if (m == PMethod.mend) = true then setReflecting w3 pid false else w3).scr j)
            = w.scr j := by
        intro w3 hw3
        by_cases hm : (m == PMethod.mend) = true <;>
          simp only [hm, if_true, if_false, Bool.false_eq_true]
        · rw [scr_setReflecting_ne _ _ _ _ hj]; exact hw3
        · exact hw3
      apply h3
      cases m with
      | mscroll =>
        rw [(run_reflected_frame n (Call.onPartnerScroll pid src x y) _ pid rfl hrefl).1 j hj]
        rw [scr_logEv, scr_setReflecting_ne _ _ _ _ hj]
      | mstart => rw [scr_logEv, scr_setReflecting_ne _ _ _ _ hj]
      | mend => rw [scr_logEv, scr_setReflecting_ne _ _ _ _ hj]

/-- `invokePartners` leaves the invoking scroller itself untouched as
long as the scroller is not its own partner. -/
theorem run_invokePartners_self_frame : ∀ (fuel : Nat) (w : World) (id : Nat)
    (m : PMethod) (x y : Int),
    (∀ p ∈ (w.scr id).partners, p.1 ≠ id) →
    (run fuel w (Call.invokePartners id m x y)).scr id = w.scr id := by
  intro fuel w id m x y hps
  cases fuel with
  | zero => rfl
  | succ n =>
    simp only [run]
    by_cases hc : guardOpen (w.scr id) = true
    · simp only [hc, if_true]
      exact run_invokeList_frame n _ w id m x y id hps
    · simp only [hc, if_false, Bool.false_eq_true]

/-- `fireScrollStart` leaves the firing scroller untouched as long as
it is not its own partner. -/
theorem run_fireScrollStart_self_frame : ∀ (fuel : Nat) (w : World) (id : Nat) (x y : Int),
    (∀ p ∈ (w.scr id).partners, p.1 ≠ id) →
    (run fuel w (Call.fireScrollStart id x y)).scr id = w.scr id := by
  intro fuel w id x y hps
  cases fuel with
  | zero => rfl
  | succ n =>
    simp only [run]
    rw [scr_logEv]
    exact run_invokePartners_self_frame n w id PMethod.mstart x y hps

/-- `fireScroll` leaves the firing scroller untouched as long as it is
not its own partner. -/
theorem run_fireScroll_self_frame : ∀ (fuel : Nat) (w : World) (id : Nat) (x y : Int),
    (∀ p ∈ (w.scr id).partners, p.1 ≠ id) →
    (run fuel w (Call.fireScroll id x y)).scr id = w.scr id := by
  intro fuel w id x y hps
  cases fuel with
  | zero => rfl
  | succ n =>
    simp only [run]
    rw [scr_logEv]
    exact run_invokePartners_self_frame n w id PMethod.mscroll x y hps

/-- After a DOM scroll notification carrying position `(x, y)`, a
scroller that is not its own partner sits exactly at `(x, y)`. -/
theorem run_domScroll_pos : ∀ (fuel : Nat) (w : World) (id : Nat) (x y : Int),
    (∀ p ∈ (w.scr id).partners, p.1 ≠ id) →
    ((run (fuel + 1) w (Call.domScroll id x y)).scr id).pos = (x, y) := by
  intro fuel w id x y hps
  have hp1 : ((setPos w id x y).scr id).pos = (x, y) := by
    rw [scr_setPos_self]
  have hpart1 : ((setPos w id x y).scr id).partners = (w.scr id).partners := by
    rw [scr_setPos_self]
  simp only [run]
  by_cases hc : ((setPos w id x y).scr id).isScrolling = true <;>
    simp only [hc, if_true, if_false, Bool.false_eq_true]
  · have h3 : (run fuel (setPos w id x y) (Call.fireScroll id x y)).scr id
        = (setPos w id x y).scr id := by
      apply run_fireScroll_self_frame
      rw [hpart1]; exact hps
    rw [scr_setPendingEnd_self, h3, hp1]
  · have hpart2 : ((setScrolling (setPos w id x y) id true).scr id).partners
        = (w.scr id).partners := by
      rw [scr_setScrolling_self]; exact hpart1
    have h2 : (run fuel (setScrolling (setPos w id x y) id true)
        (Call.fireScrollStart id x y)).scr id
        = (setScrolling (setPos w id x y) id true).scr id := by
      apply run_fireScrollStart_self_frame
      rw [hpart2]; exact hps
    have h3 : (run fuel (run fuel (setScrolling (setPos w id x y) id true)
        (Call.fireScrollStart id x y)) (Call.fireScroll id x y)).scr id
        = (setScrolling (setPos w id x y) id true).scr id := by
      rw [run_fireScroll_self_frame _ _ _ _ _ (by rw [h2, hpart2]; exact hps), h2]
    rw [scr_setPendingEnd_self, h3, scr_setScrolling_self, hp1]

/-- `doScrollTo` with a `null` x target never moves the x position of a
scroller that is not its own partner. -/
theorem run_doScrollTo_noneX : ∀ (fuel : Nat) (w : World) (id : Nat) (oy : Option Int),
    (∀ p ∈ (w.scr id).partners, p.1 ≠ id) →
    ((run fuel w (Call.doScrollTo id none oy)).scr id).pos.1 = (w.scr id).pos.1 := by
  intro fuel w id oy hps
  cases fuel with
  | zero => rfl
  | succ n =>
    by_cases hc :
        (scrollTargetSpec (w.scr id).minPos (w.scr id).maxPos (w.scr id).pos none oy
          == (w.scr id).pos) = true
    · simp only [run, hc, if_true]
    · simp only [run, hc, if_false, Bool.false_eq_true]
      cases n with
      | zero => rfl
      | succ k =>
        rw [run_domScroll_pos k w id _ _ hps]
        rfl

/-- `doScrollTo` with a `null` y target never moves the y position of a
scroller that is not its own partner. -/
theorem run_doScrollTo_noneY : ∀ (fuel : Nat) (w : World) (id : Nat) (ox : Option Int),
    (∀ p ∈ (w.scr id).partners, p.1 ≠ id) →
    ((run fuel w (Call.doScrollTo id ox none)).scr id).pos.2 = (w.scr id).pos.2 := by
  intro fuel w id ox hps
  cases fuel with
  | zero => rfl
  | succ n =>
    by_cases hc :
        (scrollTargetSpec (w.scr id).minPos (w.scr id).maxPos (w.scr id).pos ox none
          == (w.scr id).pos) = true
    · simp only [run, hc, if_true]
    · simp only [run, hc, if_false, Bool.false_eq_true]
      cases n with
      | zero => rfl
      | succ k =>
        rw [run_domScroll_pos k w id _ _ hps]
        rfl

/-! ## C1: no infinite propagation in a 2-cycle of partners -/

/-- C1.  Whenever a scroller is reflecting or suspended its
`invokePartners` performs no propagation at all, and consequently a
single originating DOM scroll of scroller `0` in the mutually
partnered 2-cycle fires scroller `0`'s own `scroll` exactly once,
invokes scroller `1`'s `onPartnerScroll` exactly once, and never
propagates back to scroller `0`. -/
theorem two_cycle_single_propagation :
    (∀ (fuel : Nat) (w : World) (id : Nat) (m : PMethod) (x y : Int),
      (w.scr id).isReflecting = true ∨ (w.scr id).suspendSync ≠ 0 →
      run fuel w (Call.invokePartners id m x y) = w) ∧
    countFiredScroll 0 c1World.log = 1 ∧
    countPartnerScrollTo 1 c1World.log = 1 ∧
    countPartnerCallsTo 0 c1World.log = 0 := by
  refine ⟨?_, by decide, by decide, by decide⟩
  intro fuel w id m x y h
  exact run_invokePartners_blocked fuel w id m x y (guardOpen_false_of _ h)

/-- C1 witness: the guard clause applied to a concretely suspended
scroller. -/
theorem two_cycle_single_propagation_witness :
    (((suspendPartnerSync world2 0).scr 0).isReflecting = true ∨
      ((suspendPartnerSync world2 0).scr 0).suspendSync ≠ 0) ∧
    run 5 (suspendPartnerSync world2 0) (Call.invokePartners 0 PMethod.mscroll 1 2)
      = suspendPartnerSync world2 0 :=
  ⟨Or.inr (by decide),
    two_cycle_single_propagation.1 5 (suspendPartnerSync world2 0) 0
      PMethod.mscroll 1 2 (Or.inr (by decide))⟩

/-! ## C3: suspension gates propagation; resume(true) emits one pair -/

/-- C3.  While the suspend counter is nonzero `invokePartners` is a
no-op, so three DOM scrolls (and the closing scroll-end) of the
suspended scroller `0` propagate nothing; the subsequent
`resumePartnerSync(true)` propagates exactly one
`onPartnerScroll`/`onPartnerScrollEnd` pair to partner `1`, both
carrying the final position `(30, 40)`. -/
theorem suspend_resume_synthetic_pair :
    (∀ (fuel : Nat) (w : World) (id : Nat) (m : PMethod) (x y : Int),
      (w.scr id).suspendSync ≠ 0 →
      run fuel w (Call.invokePartners id m x y) = w) ∧
    partnerCalls c3Ended.log = [] ∧
    partnerCalls c3Resumed.log =
      [LogEv.partnerCall 1 0 PMethod.mscroll 30 40,
       LogEv.partnerCall 1 0 PMethod.mend 30 40] ∧
    (c3Resumed.scr 0).pos = (30, 40) := by
  refine ⟨?_, by decide, by decide, by decide⟩
  intro fuel w id m x y h
  exact run_invokePartners_blocked fuel w id m x y (guardOpen_false_of _ (Or.inr h))

/-- C3 witness: the suspension clause applied to a concretely suspended
scroller. -/
theorem suspend_resume_synthetic_pair_witness :
    ((suspendPartnerSync world2 1).scr 1).suspendSync ≠ 0 ∧
    run 7 (suspendPartnerSync world2 1) (Call.invokePartners 1 PMethod.mend 3 4)
      = suspendPartnerSync world2 1 :=
  ⟨by decide,
    suspend_resume_synthetic_pair.1 7 (suspendPartnerSync world2 1) 1
      PMethod.mend 3 4 (by decide)⟩

/-! ## C4: the reflecting flag survives intermediate moves -/

/-- C4.  A set reflecting flag survives every end-free cascade (in
particular every intermediate scroll delta), and in the 2-cycle
scenario partner `1` is reflecting after the originating scroll,
still reflecting after a second intermediate scroll, and cleared
exactly when the originator's scroll-end propagates
`onPartnerScrollEnd` to it. -/
theorem reflecting_cleared_only_at_scroll_end :
    (∀ (fuel : Nat) (c : Call) (w : World) (j : Nat),
      endFree c = true → (w.scr j).isReflecting = true →
      ((run fuel w c).scr j).isReflecting = true) ∧
    (c1World.scr 1).isReflecting = true ∧
    (c4World2.scr 1).isReflecting = true ∧
    (c4World3.scr 1).isReflecting = false :=
  ⟨run_reflect_mono, by decide, by decide, by decide⟩

/-- C4 witness: monotonicity applied to a concrete end-free call. -/
theorem reflecting_cleared_only_at_scroll_end_witness :
    endFree (Call.fireScroll 0 1 2) = true ∧
    ((setReflecting world2 1 true).scr 1).isReflecting = true ∧
    ((run 6 (setReflecting world2 1 true) (Call.fireScroll 0 1 2)).scr 1).isReflecting
      = true :=
  ⟨by decide, by decide,
    reflecting_cleared_only_at_scroll_end.1 6 (Call.fireScroll 0 1 2)
      (setReflecting world2 1 true) 1 (by decide) (by decide)⟩

/-! ## C6: axis filtering on partner propagation -/

/-- C6.  A partnership stored with axis `'y'` makes `onPartnerScroll`
null the x coordinate before delegating to `doScrollTo`, so the
partner's x position is untouched; symmetrically for axis `'x'` and
the y coordinate.  Concretely, scrolling the originator of a
y-partnership to `(5, 7)` moves the partner to `(0, 7)`, and of an
x-partnership to `(5, 0)`. -/
theorem axis_filter_preserves_other_axis :
    (∀ (fuel : Nat) (w : World) (self src : Nat) (x y : Int),
      pget (w.scr src).partners self = some Axis.y →
      run (fuel + 1) w (Call.onPartnerScroll self src x y) =
        run fuel w (Call.doScrollTo self none (some y))) ∧
    (∀ (fuel : Nat) (w : World) (self src : Nat) (x y : Int),
      pget (w.scr src).partners self = some Axis.x →
      run (fuel + 1) w (Call.onPartnerScroll self src x y) =
        run fuel w (Call.doScrollTo self (some x) none)) ∧
    (∀ (fuel : Nat) (w : World) (self src : Nat) (x y : Int),
      pget (w.scr src).partners self = some Axis.y →
      (∀ p ∈ (w.scr self).partners, p.1 ≠ self) →
      ((run fuel w (Call.onPartnerScroll self src x y)).scr self).pos.1
        = (w.scr self).pos.1) ∧
    (∀ (fuel : Nat) (w : World) (self src : Nat) (x y : Int),
      pget (w.scr src).partners self = some Axis.x →
      (∀ p ∈ (w.scr self).partners, p.1 ≠ self) →
      ((run fuel w (Call.onPartnerScroll self src x y)).scr self).pos.2
        = (w.scr self).pos.2) ∧
    ((run 20 world2y (Call.domScroll 0 5 7)).scr 1).pos = (0, 7) ∧
    ((run 20 world2x (Call.domScroll 0 5 7)).scr 1).pos = (5, 0) := by
  refine ⟨?_, ?_, ?_, ?_, by decide, by decide⟩
  · intro fuel w self src x y hax
    simp [run, hax]
  · intro fuel w self src x y hax
    simp [run, hax]
  · intro fuel w self src x y hax hself
    cases fuel with
    | zero => rfl
    | succ g =>
      have hdis : run (g + 1) w (Call.onPartnerScroll self src x y)
          = run g w (Call.doScrollTo self none (some y)) := by
        simp [run, hax]
      rw [hdis]
      exact run_doScrollTo_noneX g w self _ hself
  · intro fuel w self src x y hax hself
    cases fuel with
    | zero => rfl
    | succ g =>
      have hdis : run (g + 1) w (Call.onPartnerScroll self src x y)
          = run g w (Call.doScrollTo self (some x) none) := by
        simp [run, hax]
      rw [hdis]
      exact run_doScrollTo_noneY g w self _ hself

/-- C6 witness: the y-axis clause applied to the concrete
y-partnership. -/
theorem axis_filter_preserves_other_axis_witness :
    pget (world2y.scr 0).partners 1 = some Axis.y ∧
    (∀ p ∈ (world2y.scr 1).partners, p.1 ≠ 1) ∧
    ((run 9 world2y (Call.onPartnerScroll 1 0 5 7)).scr 1).pos.1
      = (world2y.scr 1).pos.1 :=
  ⟨by decide, by decide,
    axis_filter_preserves_other_axis.2.2.1 9 world2y 1 0 5 7 (by decide) (by decide)⟩

/-! ## C10: the suspend counter never underflows -/

/-- C10.  The suspend counter stays at zero across a resume of a
non-suspended scroller (it is decremented only when nonzero), it never
becomes negative under suspend/resume, a bare unbalanced resume is a
complete no-op, and a scroll after the extra resume still propagates
to the partner exactly once. -/
theorem resume_counter_never_negative :
    (∀ (fuel : Nat) (w : World) (id : Nat) (syncNow : Bool),
      (w.scr id).suspendSync = 0 →
      ((resumePartnerSync fuel w id syncNow).scr id).suspendSync = 0) ∧
    (∀ (w : World) (id j : Nat),
      0 ≤ (w.scr j).suspendSync →
      0 ≤ ((suspendPartnerSync w id).scr j).suspendSync) ∧
    (∀ (fuel : Nat) (w : World) (id : Nat) (syncNow : Bool) (j : Nat),
      0 ≤ (w.scr j).suspendSync →
      0 ≤ ((resumePartnerSync fuel w id syncNow).scr j).suspendSync) ∧
    (∀ (fuel : Nat) (w : World) (id : Nat),
      (w.scr id).suspendSync = 0 →
      resumePartnerSync fuel w id false = w) ∧
    countPartnerScrollTo 1 (run 20 c10World (Call.domScroll 0 5 7)).log = 1 := by
  refine ⟨?_, ?_, ?_, ?_, by decide⟩
  · intro fuel w id syncNow h
    unfold resumePartnerSync
    have hb : ((w.scr id).suspendSync == 0) = true := by simpa using h
    simp only [hb, if_true]
    cases syncNow with
    | false => simpa using h
    | true =>
      simp only [hb, Bool.and_true, if_true]
      rw [(run_preserves_sp _ _ _ id).1, (run_preserves_sp _ _ _ id).1]
      exact h
  · intro w id j h
    unfold suspendPartnerSync
    rw [scr_updScr]
    by_cases hj : j = id
    · subst hj; simp; omega
    · simp [hj]; exact h
  · intro fuel w id syncNow j h
    unfold resumePartnerSync
    by_cases h0 : ((w.scr id).suspendSync == 0) = true
    · simp only [h0, if_true]
      cases syncNow with
      | false => simpa using h
      | true =>
        simp only [h0, Bool.and_true, if_true]
        rw [(run_preserves_sp _ _ _ j).1, (run_preserves_sp _ _ _ j).1]
        exact h
    · simp only [h0, if_false, Bool.false_eq_true]
      have hd : 0 ≤ ((updScr w id fun s =>
          { s with suspendSync := s.suspendSync - 1 }).scr j).suspendSync := by
        rw [scr_updScr]
        by_cases hj : j = id
        · subst hj
          have hnz : (w.scr j).suspendSync ≠ 0 := by simpa using h0
          simp only [if_pos rfl, reduceIte]
          simp only [Scroller.mk.injEq] at *
          simp
          omega
        · simp [hj]; exact h
      cases syncNow with
      | false => simpa using hd
      | true =>
        simp only [Bool.and_true]
        by_cases hz : (((updScr w id fun s =>
            { s with suspendSync := s.suspendSync - 1 }).scr id).suspendSync == 0) = true <;>
          simp only [hz, if_true, if_false, Bool.false_eq_true]
        · rw [(run_preserves_sp _ _ _ j).1, (run_preserves_sp _ _ _ j).1]
          exact hd
        · exact hd
  · intro fuel w id h
    unfold resumePartnerSync
    have hb : ((w.scr id).suspendSync == 0) = true := by simpa using h
    simp only [hb, if_true, Bool.and_false, if_false, Bool.false_eq_true]

/-- C10 witness: the no-op clause applied to the concrete 2-cycle
world. -/
theorem resume_counter_never_negative_witness :
    (world2.scr 0).suspendSync = 0 ∧
    resumePartnerSync 5 world2 0 false = world2 :=
  ⟨by decide, resume_counter_never_negative.2.2.2.1 5 world2 0 (by decide)⟩

/-! ## Debounce lemmas -/

theorem filter_start_map_scroll : ∀ ts : List Nat,
    (ts.map DEv.scroll).filter isStartEv = [] := by
  intro ts
  induction ts with
  | nil => rfl
  | cons t ts ih => simp [isStartEv, ih]

theorem filter_scroll_map_scroll : ∀ ts : List Nat,
    (ts.map DEv.scroll).filter isScrollEv = ts.map DEv.scroll := by
  intro ts
  induction ts with
  | nil => rfl
  | cons t ts ih => simp [isScrollEv, ih]

theorem filter_end_map_scroll : ∀ ts : List Nat,
    (ts.map DEv.scroll).filter isEndEv = [] := by
  intro ts
  induction ts with
  | nil => rfl
  | cons t ts ih => simp [isEndEv, ih]

/-- While a gesture is in flight with a pending buffered scroll-end,
each further delta inside the quiet window fires exactly one `scroll`
and reschedules the buffer; the `scrollend` fires at the last delta
plus 100ms. -/
theorem runFrom_scrolling : ∀ (ts : List Nat) (prev : Nat),
    withinWindowB prev ts = true →
    runFrom ⟨true, some (prev + 100), true, false⟩ (ts.map DIn.delta) =
      ts.map DEv.scroll ++ [DEv.scrollend (ts.getLastD prev + 100)] := by
  intro ts
  induction ts with
  | nil =>
    intro prev _
    simp [runFrom, flushDS]
  | cons t ts ih =>
    intro prev hw
    simp only [withinWindowB, Bool.and_assoc, Bool.and_eq_true, decide_eq_true_eq] at hw
    obtain ⟨h1, h2, h3⟩ := hw
    have hle : ¬ (prev + 100 ≤ t) := by omega
    simp only [List.map_cons, runFrom, stepDS, DIn.time, fireDue, onDelta, hle,
      if_false, if_true, Bool.false_or, Bool.not_true, Bool.or_false,
      Bool.false_eq_true, List.nil_append]
    rw [ih t h3]
    cases ts with
    | nil => simp
    | cons a as =>
      have hx : (a :: as).getLast?.isSome = true := by
        simp [List.getLast?_isSome]
      obtain ⟨x, hxx⟩ := Option.isSome_iff_exists.mp hx
      simp [List.getLastD_cons, hxx]

/-! ## C2: debounce correctness of the scroll lifecycle -/

/-- C2.  N DOM scroll deltas, each arriving strictly inside the 100ms
quiet window of its predecessor, produce exactly one `scrollstart` (at
the first delta), one `scroll` per delta, and exactly one `scrollend`,
fired at the last delta plus 100ms; every delta (re)schedules the
buffered scroll-end 100ms out, cancelling the pending one. -/
theorem debounce_scroll_lifecycle :
    (∀ (t : Nat) (ts : List Nat),
      withinWindowB t ts = true →
      runDS ((t :: ts).map DIn.delta) =
        DEv.scrollstart t :: DEv.scroll t ::
          (ts.map DEv.scroll ++ [DEv.scrollend (ts.getLastD t + 100)])) ∧
    (∀ (t : Nat) (ts : List Nat),
      withinWindowB t ts = true →
      ((runDS ((t :: ts).map DIn.delta)).filter isStartEv).length = 1 ∧
      ((runDS ((t :: ts).map DIn.delta)).filter isScrollEv).length = ts.length + 1 ∧
      (runDS ((t :: ts).map DIn.delta)).filter isEndEv =
        [DEv.scrollend (ts.getLastD t + 100)]) ∧
    (∀ (s : DS) (t : Nat),
      s.destroyed = false → s.listener = true →
      (onDelta s t).1.pendingEnd = some (t + 100)) := by
  have hmain : ∀ (t : Nat) (ts : List Nat),
      withinWindowB t ts = true →
      runDS ((t :: ts).map DIn.delta) =
        DEv.scrollstart t :: DEv.scroll t ::
          (ts.map DEv.scroll ++ [DEv.scrollend (ts.getLastD t + 100)]) := by
    intro t ts hw
    simp only [List.map_cons, runDS, runFrom, stepDS, DIn.time, fireDue, DS.init,
      onDelta, Bool.false_or, Bool.not_true, Bool.or_false, if_false, if_true,
      Bool.false_eq_true, List.nil_append]
    rw [runFrom_scrolling ts t hw]
    rfl
  refine ⟨hmain, ?_, ?_⟩
  · intro t ts hw
    rw [hmain t ts hw]
    refine ⟨?_, ?_, ?_⟩
    · simp [isStartEv, isScrollEv, isEndEv, List.filter_append,
        filter_start_map_scroll]
    · simp [isScrollEv, List.filter_append, filter_scroll_map_scroll]
    · simp [isEndEv, List.filter_append, filter_end_map_scroll]
  · intro s t hd hl
    unfold onDelta
    rw [hd, hl]
    by_cases hs : s.isScrolling = true <;> simp [hs]

/-- C2 witness: three deltas at 0, 50, 120ms. -/
theorem debounce_scroll_lifecycle_witness :
    withinWindowB 0 [50, 120] = true ∧
    runDS ([0, 50, 120].map DIn.delta) =
      [DEv.scrollstart 0, DEv.scroll 0, DEv.scroll 50, DEv.scroll 120,
       DEv.scrollend 220] :=
  ⟨by decide, by
    have h := debounce_scroll_lifecycle.1 0 [50, 120] (by decide)
    simpa using h⟩

/-! ## C9: destroy detaches listeners and cancels the pending end -/

/-- A fully torn down scroller emits nothing ever again. -/
theorem runFrom_destroyed : ∀ (ins : List DIn) (s : DS),
    s.destroyed = true → s.listener = false → s.pendingEnd = none →
    runFrom s ins = [] := by
  intro ins
  induction ins with
  | nil =>
    intro s _ _ hp
    simp [runFrom, flushDS, hp]
  | cons i rest ih =>
    intro s hd hl hp
    cases i with
    | delta t =>
      simp only [runFrom, stepDS, DIn.time, fireDue, hp, onDelta, hd,
        Bool.true_or, if_true, List.nil_append]
      exact ih s hd hl hp
    | destroy t =>
      simp only [runFrom, stepDS, DIn.time, fireDue, hp, List.nil_append]
      exact ih _ rfl rfl rfl

/-- C9.  Destroying a scroller is a complete synchronous teardown: the
inputs after the destroy contribute no events at all (the only events
of the destroy step are those of a buffer that had already expired
before the destroy arrived), the post-destroy state has the host
listener detached, no pending buffered scroll-end and the destroyed
mark set, and a buffer still pending at destroy time is cancelled
outright, so no `scrollend` ever fires against the disposed
scroller. -/
theorem destroy_cancels_pending_end :
    (∀ (s : DS) (t : Nat) (post : List DIn),
      runFrom s (DIn.destroy t :: post) = (fireDue s t).2) ∧
    (∀ (s : DS) (t : Nat),
      (stepDS s (DIn.destroy t)).1.listener = false ∧
      (stepDS s (DIn.destroy t)).1.pendingEnd = none ∧
      (stepDS s (DIn.destroy t)).1.destroyed = true) ∧
    (∀ (s : DS) (t : Nat) (post : List DIn) (d : Nat),
      s.pendingEnd = some d → t < d →
      runFrom s (DIn.destroy t :: post) = []) := by
  have h1 : ∀ (s : DS) (t : Nat) (post : List DIn),
      runFrom s (DIn.destroy t :: post) = (fireDue s t).2 := by
    intro s t post
    simp only [runFrom, stepDS, DIn.time]
    rw [runFrom_destroyed post _ rfl rfl rfl]
    simp
  refine ⟨h1, ?_, ?_⟩
  · intro s t
    exact ⟨rfl, rfl, rfl⟩
  · intro s t post d hp hlt
    rw [h1 s t post]
    simp [fireDue, hp, Nat.not_le.mpr hlt]

/-- C9 witness: a buffer pending for time 100 is cancelled by a destroy
at time 50; later deltas produce nothing. -/
theorem destroy_cancels_pending_end_witness :
    (DS.mk true (some 100) true false).pendingEnd = some 100 ∧
    50 < 100 ∧
    runFrom (DS.mk true (some 100) true false)
      (DIn.destroy 50 :: [DIn.delta 60, DIn.delta 300]) = [] :=
  ⟨by decide, by decide,
    destroy_cancels_pending_end.2.2 (DS.mk true (some 100) true false) 50
      [DIn.delta 60, DIn.delta 300] 100 (by decide) (by decide)⟩
